import Mathlib

/-!
# Verification of the DNS-query-caching demo program

Shallow embedding of `src/main.rs`: a custom `HickoryDnsResolver` wrapping a
caching DNS lookup library, plugged into an HTTP client that issues five
sequential GET requests.  Pure data flow is embedded directly; the external
resolution library's hostname-keyed cache (which lives outside this
repository) is modelled from the spec where a claim depends on it.
-/

/-- An IP address, abstracted to its textual form. -/
abbrev IpAddr := String

/-- A socket address: an IP address paired with a port number
(`std::net::SocketAddr`). -/
abbrev SocketAddr := IpAddr × Nat

/-- The error produced by the underlying lookup library
(`hickory_resolver::error::ResolveError`), abstracted to its display
message, which `main.rs` consumes only through `format!`. -/
structure LookupError where
  msg : String
deriving DecidableEq, Repr

/-- The kind carried by a `std::io::Error` (`main.rs` uses
`ErrorKind::NotFound`). -/
inductive ErrorKind where
  | notFound
  | other
deriving DecidableEq, Repr

/-- A `std::io::Error`: a kind plus a message string. -/
structure IoError where
  kind : ErrorKind
  msg : String
deriving DecidableEq, Repr

/-- A deterministic resolution backend: the authoritative answer the
network would give for each hostname. -/
abbrev Backend := String → Except LookupError (List IpAddr)

/-- The state of the resolution library's internal cache: an association
list from hostname to the address records stored for it. -/
structure CacheState where
  entries : List (String × List IpAddr)
deriving DecidableEq, Repr

/-- Modelled from the spec: the underlying resolution service
(hickory-resolver, external to this repository) "owns its own internal
cache keyed by hostname with TTL honoring DNS record TTLs" (§3).  Within a
record's validity window a lookup for a cached hostname is served from
the cache without contacting the backend; a miss performs one real
backend lookup and, on success, stores the result.  Returns the lookup
outcome, the updated cache, and the number of real backend lookups
performed (0 or 1). -/
def lookupIp (backend : Backend) (st : CacheState) (host : String) :
    Except LookupError (List IpAddr) × CacheState × Nat :=
  match st.entries.lookup host with
  | some ips => (Except.ok ips, st, 0)
  | none =>
    match backend host with
    | Except.ok ips => (Except.ok ips, ⟨(host, ips) :: st.entries⟩, 1)
    | Except.error e => (Except.error e, st, 1)

namespace HickoryDnsResolver

/-- Embeds `HickoryDnsResolver::resolve` (main.rs lines 44–67): perform
`resolver.lookup_ip(host)`; on success map each returned IP address to a
`SocketAddr` with port 0, preserving order; on failure wrap the cause in a
`NotFound` I/O error whose message is `"DNS resolution failed: "` followed
by the cause's display.  The host is threaded through to the lookup but
does not enter the constructed error value. -/
def resolve (backend : Backend) (st : CacheState) (host : String) :
    Except IoError (List SocketAddr) × CacheState × Nat :=
  match lookupIp backend st host with
  | (Except.ok ips, st2, n) =>
      (Except.ok (ips.map fun ip => (ip, 0)), st2, n)
  | (Except.error e, st2, n) =>
      (Except.error { kind := ErrorKind.notFound,
                      msg := "DNS resolution failed: " ++ e.msg }, st2, n)

end HickoryDnsResolver

/-- Configuration constants set in `HickoryDnsResolver::new`
(main.rs lines 23–27): `opts.cache_size = 1024`. -/
def cacheSize : Nat := 1024

/-- Embeds `opts.timeout = Duration::from_secs(3)`: seconds allotted to
each lookup attempt. -/
def lookupTimeoutSecs : Nat := 3

/-- Embeds `opts.attempts = 2`: retry attempts inside the resolver. -/
def lookupAttempts : Nat := 2

/-- Embeds `Client::builder().timeout(Duration::from_secs(10))` (main.rs
lines 106–109): the overall per-request client timeout in seconds. -/
def clientTimeoutSecs : Nat := 10

/-- Number of requests issued by the main loop (`for i in 1..=5`). -/
def requestCount : Nat := 5

/-- An HTTP response, abstracted to its status code; `main` reads only
`response.status()`. -/
structure Response where
  status : Nat
deriving DecidableEq, Repr

/-- A transport-level request failure (`reqwest::Error`): name resolution,
connection establishment, overall timeout, or other I/O. -/
inductive ReqError where
  | resolution (e : IoError)
  | connect (msg : String)
  | timedOut
  | transport (msg : String)
deriving DecidableEq, Repr

/-- Embeds `fetch_url` (main.rs lines 132–143): sends the GET request and
returns whatever the client produced — `Ok(response)` for any response
the server gave, regardless of its HTTP status code, and `Err` only for a
transport-level failure.  No status inspection happens here. -/
def fetchUrl (send : Except ReqError Response) : Except ReqError Response :=
  send

/-- An observable event of the main loop: issuing request `i`, or
sleeping the fixed 100 ms inter-request delay. -/
inductive Event where
  | request (i : Nat)
  | delay
deriving DecidableEq, Repr

/-- The main loop (main.rs lines 117–124) from request index `i`, with
`n` requests remaining: issue `fetch_url`, propagate its error with `?`
(aborting the loop), then sleep 100 ms and continue.  Returns the loop's
outcome and the ordered trace of events. -/
def runFrom (send : Nat → Except ReqError Response) (i : Nat) :
    Nat → Except ReqError Unit × List Event
  | 0 => (Except.ok (), [])
  | n + 1 =>
    match fetchUrl (send i) with
    | Except.error e => (Except.error e, [Event.request i])
    | Except.ok _ =>
      let rest := runFrom send (i + 1) n
      (rest.1, Event.request i :: Event.delay :: rest.2)

/-- The full request loop of `main`: `for i in 1..=5`. -/
def runRequests (send : Nat → Except ReqError Response) :
    Except ReqError Unit × List Event :=
  runFrom send 1 requestCount

/-- Embeds `main` (main.rs lines 74–127): the setup steps (opening the log file,
building the client) may fail and propagate with `?`; otherwise the
request loop runs and its outcome is `main`'s result. -/
def mainResult (setup : Except ReqError Unit)
    (send : Nat → Except ReqError Response) : Except ReqError Unit :=
  match setup with
  | Except.error e => Except.error e
  | Except.ok _ => (runRequests send).1

/-- Process exit code: `Ok` from `main` exits 0, `Err` exits nonzero
(here 1). -/
def exitCode (r : Except ReqError Unit) : Nat :=
  match r with
  | Except.ok _ => 0
  | Except.error _ => 1

/-- The expected trace of a fully successful run of `n` requests starting
at index `s`: each request immediately followed by a delay. -/
def reqDelays (s : Nat) : Nat → List Event
  | 0 => []
  | n + 1 => Event.request s :: Event.delay :: reqDelays (s + 1) n

/-- A backend that fails every lookup with a fixed cause message — the
"backend fails every attempt" mock of spec §8.6. -/
def failBackend : Backend := fun _ => Except.error ⟨"no records found"⟩

/-! ## Claim theorems about the resolver -/

/-- C7: the overall per-request client timeout (10 s) strictly exceeds the
resolver's per-lookup-attempt timeout (3 s), and even the full resolution
attempt budget (3 s × 2 attempts) stays below it, so an exhausted
resolution cannot outlast the client timeout. -/
theorem client_timeout_exceeds_lookup_timeout :
    lookupTimeoutSecs < clientTimeoutSecs ∧
      lookupTimeoutSecs * lookupAttempts < clientTimeoutSecs := by
  decide

/-- C2: every socket address returned by a successful `resolve` carries
port 0; the caller supplies no port. -/
theorem resolve_ports_zero (backend : Backend) (st : CacheState)
    (host : String) (addrs : List SocketAddr)
    (h : (HickoryDnsResolver.resolve backend st host).1 = Except.ok addrs) :
    ∀ a ∈ addrs, a.2 = 0 := by
  rcases heq : lookupIp backend st host with ⟨r, st2, n⟩
  cases r with
  | ok ips =>
    simp only [HickoryDnsResolver.resolve, heq] at h
    cases h with
    | refl =>
      intro a ha
      rcases List.mem_map.mp ha with ⟨ip, _, rfl⟩
      rfl
  | error e =>
    simp [HickoryDnsResolver.resolve, heq] at h

theorem resolve_ports_zero_witness :
    ((("10.0.0.1" : IpAddr), 0) : SocketAddr).2 = 0 :=
  resolve_ports_zero (fun _ => Except.ok ["10.0.0.1"]) ⟨[]⟩ "example.test"
    [("10.0.0.1", 0)] rfl ("10.0.0.1", 0) (List.mem_singleton.mpr rfl)

/-- C5: when the underlying lookup yields zero address records (a fresh
lookup against a backend that answers with an empty record set),
`resolve` returns the empty sequence wrapped in `Ok`, not an error. -/
theorem resolve_empty_is_ok (backend : Backend) (st : CacheState)
    (host : String)
    (hmiss : st.entries.lookup host = none)
    (hb : backend host = Except.ok []) :
    (HickoryDnsResolver.resolve backend st host).1 = Except.ok [] := by
  simp [HickoryDnsResolver.resolve, lookupIp, hmiss, hb]

theorem resolve_empty_is_ok_witness :
    (HickoryDnsResolver.resolve (fun _ => Except.ok []) ⟨[]⟩
      "empty.test").1 = Except.ok [] :=
  resolve_empty_is_ok (fun _ => Except.ok []) ⟨[]⟩ "empty.test" rfl rfl

/-- Mapping each IP to `(ip, 0)` and projecting the address back is the
identity: the port-0 pairing neither adds, drops nor reorders entries. -/
theorem map_fst_port_pairs (l : List IpAddr) :
    (l.map fun ip => (ip, 0)).map Prod.fst = l := by
  induction l with
  | nil => rfl
  | cons a t ih => simpa using ih

/-- C8: a successful `resolve` returns exactly the IP addresses produced
by the underlying lookup, in the same order and multiplicity, each paired
with port 0 — nothing added, dropped or reordered. -/
theorem resolve_preserves_lookup_order (backend : Backend) (st : CacheState)
    (host : String) (ips : List IpAddr)
    (h : (lookupIp backend st host).1 = Except.ok ips) :
    ∃ addrs, (HickoryDnsResolver.resolve backend st host).1 = Except.ok addrs ∧
      addrs.map Prod.fst = ips ∧ ∀ a ∈ addrs, a.2 = 0 := by
  rcases heq : lookupIp backend st host with ⟨r, st2, n⟩
  rw [heq] at h
  cases r with
  | ok ips0 =>
    simp only [Except.ok.injEq] at h
    subst h
    refine ⟨ips0.map fun ip => (ip, 0), ?_, ?_, ?_⟩
    · simp [HickoryDnsResolver.resolve, heq]
    · exact map_fst_port_pairs ips0
    · intro a ha
      rcases List.mem_map.mp ha with ⟨ip, _, rfl⟩
      rfl
  | error e => simp at h

theorem resolve_preserves_lookup_order_witness :
    ∃ addrs,
      (HickoryDnsResolver.resolve
        (fun _ => Except.ok ["10.0.0.1", "10.0.0.2", "10.0.0.1"]) ⟨[]⟩
        "multi.test").1 = Except.ok addrs ∧
      addrs.map Prod.fst = ["10.0.0.1", "10.0.0.2", "10.0.0.1"] ∧
      ∀ a ∈ addrs, a.2 = 0 :=
  resolve_preserves_lookup_order
    (fun _ => Except.ok ["10.0.0.1", "10.0.0.2", "10.0.0.1"]) ⟨[]⟩
    "multi.test" ["10.0.0.1", "10.0.0.2", "10.0.0.1"] rfl

/-- C1: with a deterministic backend that answers the hostname, calling
`resolve` twice within the cached record's validity window performs at
most one real backend lookup in total, and both calls return the same
outcome. -/
theorem resolve_twice_one_lookup (backend : Backend) (st : CacheState)
    (host : String) (ips : List IpAddr)
    (hb : backend host = Except.ok ips) :
    (HickoryDnsResolver.resolve backend st host).2.2 +
      (HickoryDnsResolver.resolve backend
        (HickoryDnsResolver.resolve backend st host).2.1 host).2.2 ≤ 1 ∧
    (HickoryDnsResolver.resolve backend st host).1 =
      (HickoryDnsResolver.resolve backend
        (HickoryDnsResolver.resolve backend st host).2.1 host).1 := by
  cases h : st.entries.lookup host with
  | some cached =>
    simp [HickoryDnsResolver.resolve, lookupIp, h]
  | none =>
    simp [HickoryDnsResolver.resolve, lookupIp, h, hb, List.lookup]

theorem resolve_twice_one_lookup_witness :
    (HickoryDnsResolver.resolve (fun _ => Except.ok ["10.0.0.1"]) ⟨[]⟩
        "example.test").2.2 +
      (HickoryDnsResolver.resolve (fun _ => Except.ok ["10.0.0.1"])
        (HickoryDnsResolver.resolve (fun _ => Except.ok ["10.0.0.1"]) ⟨[]⟩
          "example.test").2.1 "example.test").2.2 ≤ 1 ∧
    (HickoryDnsResolver.resolve (fun _ => Except.ok ["10.0.0.1"]) ⟨[]⟩
        "example.test").1 =
      (HickoryDnsResolver.resolve (fun _ => Except.ok ["10.0.0.1"])
        (HickoryDnsResolver.resolve (fun _ => Except.ok ["10.0.0.1"]) ⟨[]⟩
          "example.test").2.1 "example.test").1 :=
  resolve_twice_one_lookup (fun _ => Except.ok ["10.0.0.1"]) ⟨[]⟩
    "example.test" ["10.0.0.1"] rfl

/-- C3 counterexample: the error returned by `resolve` does not carry the
host.  Two distinct hostnames failing with the same underlying cause
produce the very same error value (the code builds the error from the
cause alone, `"DNS resolution failed: {e}"`, and only logs the host), so
the error cannot identify the host; it is also a plain `NotFound` I/O
error rather than a dedicated `ResolutionError` type. -/
theorem resolve_error_independent_of_host :
    (HickoryDnsResolver.resolve failBackend ⟨[]⟩ "a.example").1 =
      (HickoryDnsResolver.resolve failBackend ⟨[]⟩ "b.example").1 ∧
    ("a.example" : String) ≠ "b.example" ∧
    (HickoryDnsResolver.resolve failBackend ⟨[]⟩ "a.example").1 =
      Except.error ⟨ErrorKind.notFound,
        "DNS resolution failed: no records found"⟩ :=
  ⟨rfl, by decide, rfl⟩

/-- C3 (amended): when the underlying lookup fails, `resolve` fails with
a `NotFound`-kind I/O error whose message is `"DNS resolution failed: "`
followed by the original cause's message — it carries the cause, but not
the host, and is not a dedicated typed error. -/
theorem resolve_failure_error_shape (backend : Backend) (st : CacheState)
    (host : String) (e : LookupError)
    (hmiss : st.entries.lookup host = none)
    (hb : backend host = Except.error e) :
    (HickoryDnsResolver.resolve backend st host).1 =
      Except.error ⟨ErrorKind.notFound,
        "DNS resolution failed: " ++ e.msg⟩ := by
  simp [HickoryDnsResolver.resolve, lookupIp, hmiss, hb]

theorem resolve_failure_error_shape_witness :
    (HickoryDnsResolver.resolve failBackend ⟨[]⟩ "fail.test").1 =
      Except.error ⟨ErrorKind.notFound,
        "DNS resolution failed: " ++ "no records found"⟩ :=
  resolve_failure_error_shape failBackend ⟨[]⟩ "fail.test"
    ⟨"no records found"⟩ rfl rfl

/-! ## Lemmas about the request loop -/

/-- The loop from index `s` over `n` requests succeeds exactly when every
`fetch_url` in the range succeeds. -/
theorem runFrom_ok_iff (send : Nat → Except ReqError Response) (n : Nat) :
    ∀ s, (runFrom send s n).1 = Except.ok () ↔
      ∀ j, s ≤ j → j < s + n → (fetchUrl (send j)).isOk = true := by
  induction n with
  | zero =>
    intro s
    simp only [runFrom]
    constructor
    · intro _ j h1 h2
      omega
    · intro _
      trivial
  | succ n ih =>
    intro s
    cases h : fetchUrl (send s) with
    | error e =>
      simp only [runFrom, h]
      constructor
      · intro hcontra
        exact absurd hcontra (by simp)
      · intro hall
        have hs := hall s (Nat.le_refl s) (by omega)
        rw [h] at hs
        exact absurd hs (by simp [Except.isOk, Except.toBool])
    | ok r =>
      simp only [runFrom, h]
      rw [ih (s + 1)]
      constructor
      · intro hall j h1 h2
        rcases Nat.eq_or_lt_of_le h1 with hj | hj
        · rw [← hj, h]
          rfl
        · exact hall j hj (by omega)
      · intro hall j h1 h2
        exact hall j (by omega) (by omega)

/-- On a fully successful run the loop's trace is each request in order,
each immediately followed by the fixed delay. -/
theorem runFrom_ok_trace (send : Nat → Except ReqError Response) (n : Nat) :
    ∀ s, (∀ j, s ≤ j → j < s + n → (fetchUrl (send j)).isOk = true) →
      runFrom send s n = (Except.ok (), reqDelays s n) := by
  induction n with
  | zero =>
    intro s _
    rfl
  | succ n ih =>
    intro s hall
    have hs := hall s (Nat.le_refl s) (by omega)
    cases h : fetchUrl (send s) with
    | error e =>
      rw [h] at hs
      exact absurd hs (by simp [Except.isOk, Except.toBool])
    | ok r =>
      have htail := ih (s + 1) (fun j h1 h2 => hall j (by omega) (by omega))
      simp only [runFrom, h, htail, reqDelays]

/-- Any request index appearing in the success trace lies in the issued
range. -/
theorem reqDelays_request_mem (n : Nat) :
    ∀ s j, Event.request j ∈ reqDelays s n → s ≤ j ∧ j < s + n := by
  induction n with
  | zero =>
    intro s j hmem
    simp [reqDelays] at hmem
  | succ n ih =>
    intro s j hmem
    simp only [reqDelays, List.mem_cons] at hmem
    rcases hmem with hj | hj | hj
    · cases hj
      omega
    · exact absurd hj (by simp)
    · have := ih (s + 1) j hj
      omega

/-- The success trace of `n` requests holds exactly `n` delay events. -/
theorem reqDelays_count_delay (n : Nat) :
    ∀ s, (reqDelays s n).count Event.delay = n := by
  induction n with
  | zero =>
    intro s
    rfl
  | succ n ih =>
    intro s
    simp [reqDelays, List.count_cons, ih (s + 1)]

/-- If every request before `i` succeeds and request `i` fails, the loop
stops at `i`: its result is request `i`'s error and its trace is the
successful prefix followed by the failing request, with no later request
issued. -/
theorem runFrom_abort (send : Nat → Except ReqError Response)
    (i : Nat) (e : ReqError) (n : Nat) :
    ∀ s, s ≤ i → i < s + n →
      (∀ j, s ≤ j → j < i → (fetchUrl (send j)).isOk = true) →
      fetchUrl (send i) = Except.error e →
      runFrom send s n = (Except.error e, reqDelays s (i - s) ++ [Event.request i]) := by
  induction n with
  | zero =>
    intro s h1 h2
    omega
  | succ n ih =>
    intro s h1 h2 hpre hfail
    rcases Nat.eq_or_lt_of_le h1 with hs | hs
    · subst hs
      simp only [runFrom, hfail, Nat.sub_self, reqDelays, List.nil_append]
    · have hsok := hpre s (Nat.le_refl s) hs
      cases h : fetchUrl (send s) with
      | error e2 =>
        rw [h] at hsok
        exact absurd hsok (by simp [Except.isOk, Except.toBool])
      | ok r =>
        have htail := ih (s + 1) (by omega) (by omega)
          (fun j ha hb => hpre j (by omega) hb) hfail
        have hcount : i - s = (i - (s + 1)) + 1 := by omega
        simp only [runFrom, h, htail, hcount, reqDelays, List.cons_append]

/-! ## Claim theorems about the request runner -/

/-- C4: if every request before `i` succeeds and request `i` fails, the
run aborts immediately: the loop's result is request `i`'s error,
unchanged, and no request with a higher index appears in the trace. -/
theorem first_failure_aborts_run (send : Nat → Except ReqError Response)
    (i : Nat) (e : ReqError)
    (h1 : 1 ≤ i) (h2 : i ≤ requestCount)
    (hpre : ∀ j, 1 ≤ j → j < i → (fetchUrl (send j)).isOk = true)
    (hfail : fetchUrl (send i) = Except.error e) :
    (runRequests send).1 = Except.error e ∧
      ∀ j, i < j → Event.request j ∉ (runRequests send).2 := by
  have habort := runFrom_abort send i e requestCount 1 h1 (by omega) hpre hfail
  constructor
  · rw [runRequests, habort]
  · intro j hj hmem
    rw [runRequests, habort] at hmem
    simp only [List.mem_append, List.mem_singleton, Event.request.injEq] at hmem
    rcases hmem with hm | hm
    · have := reqDelays_request_mem (i - 1) 1 j hm
      omega
    · omega

theorem first_failure_aborts_run_witness :
    ((runRequests fun j =>
        if j = 1 then Except.error (ReqError.resolution
          ⟨ErrorKind.notFound, "DNS resolution failed: no records found"⟩)
        else Except.ok ⟨200⟩).1 =
      Except.error (ReqError.resolution
        ⟨ErrorKind.notFound, "DNS resolution failed: no records found"⟩) ∧
    ∀ j, 1 < j →
      Event.request j ∉ (runRequests fun j =>
        if j = 1 then Except.error (ReqError.resolution
          ⟨ErrorKind.notFound, "DNS resolution failed: no records found"⟩)
        else Except.ok ⟨200⟩).2) :=
  first_failure_aborts_run _ 1 _ (Nat.le_refl 1) (by decide)
    (fun j hj1 hj2 => absurd (Nat.lt_of_le_of_lt hj1 hj2) (Nat.lt_irrefl 1))
    rfl

/-- C6: with the setup steps succeeding, the process exits with code 0
exactly when every one of the five requests succeeds; any failing request
propagates its error out of `main`, giving a nonzero exit code. -/
theorem exit_zero_iff_all_requests_ok (send : Nat → Except ReqError Response) :
    exitCode (mainResult (Except.ok ()) send) = 0 ↔
      ∀ j, 1 ≤ j → j ≤ requestCount → (fetchUrl (send j)).isOk = true := by
  have hiff := runFrom_ok_iff send requestCount 1
  constructor
  · intro h0 j hj1 hj2
    have hres : (runFrom send 1 requestCount).1 = Except.ok () := by
      cases hr : (runFrom send 1 requestCount).1 with
      | error e2 =>
        rw [mainResult] at h0
        rw [runRequests] at h0
        rw [hr] at h0
        exact absurd h0 (by simp [exitCode])
      | ok u =>
        rfl
    exact hiff.mp hres j hj1 (by omega)
  · intro hall
    have hres : (runFrom send 1 requestCount).1 = Except.ok () :=
      hiff.mpr fun j hj1 hj2 => hall j hj1 (by omega)
    show exitCode (runRequests send).1 = 0
    rw [runRequests, hres]
    rfl

theorem exit_zero_iff_all_requests_ok_witness :
    exitCode (mainResult (Except.ok ()) fun _ => Except.ok ⟨200⟩) = 0 :=
  (exit_zero_iff_all_requests_ok fun _ => Except.ok ⟨200⟩).mpr
    fun _ _ _ => rfl

/-- C9: a request counts as successful whatever its HTTP status code: if
the client returns a response for every request — 4xx and 5xx included —
the run completes and the process exits with code 0; nothing in the loop
or in `fetch_url` inspects the status. -/
theorem any_status_counts_as_success (statuses : Nat → Nat) :
    exitCode (mainResult (Except.ok ())
      fun i => Except.ok ⟨statuses i⟩) = 0 := by
  have hres : (runFrom (fun i => Except.ok ⟨statuses i⟩) 1 requestCount).1 =
      Except.ok () :=
    (runFrom_ok_iff _ requestCount 1).mpr fun _ _ _ => rfl
  show exitCode (runRequests _).1 = 0
  rw [runRequests, hres]
  rfl

theorem any_status_counts_as_success_witness :
    exitCode (mainResult (Except.ok ())
      fun i => Except.ok ⟨400 + i⟩) = 0 :=
  any_status_counts_as_success fun i => 400 + i

/-- C10: on a fully successful run the 100 ms delay is observed after
every one of the 5 requests, the last included: the trace interleaves
request and delay events ending in a delay, and the delay occurs exactly
5 times, not 4. -/
theorem delay_after_every_request (send : Nat → Except ReqError Response)
    (hok : ∀ j, 1 ≤ j → j ≤ requestCount → (fetchUrl (send j)).isOk = true) :
    (runRequests send).2 =
      [Event.request 1, Event.delay, Event.request 2, Event.delay,
       Event.request 3, Event.delay, Event.request 4, Event.delay,
       Event.request 5, Event.delay] ∧
    ((runRequests send).2).count Event.delay = 5 := by
  have htr := runFrom_ok_trace send requestCount 1
    fun j hj1 hj2 => hok j hj1 (by omega)
  constructor
  · rw [runRequests, htr]
    rfl
  · rw [runRequests, htr]
    exact (reqDelays_count_delay requestCount 1).trans rfl

theorem delay_after_every_request_witness :
    (runRequests fun _ => Except.ok ⟨200⟩).2 =
      [Event.request 1, Event.delay, Event.request 2, Event.delay,
       Event.request 3, Event.delay, Event.request 4, Event.delay,
       Event.request 5, Event.delay] ∧
    ((runRequests fun _ => Except.ok ⟨200⟩).2).count Event.delay = 5 :=
  delay_after_every_request (fun _ => Except.ok ⟨200⟩) fun _ _ _ => rfl
